import Mathlib

/-!
Verification model of easylogger's time-based rotating file handler
(`easylogger/handlers.py`, `easylogger/log.py`).

The embedding mirrors `CustomTimedRotatingFileHandler`: the unit token
parsed in `__init__`, `compute_rollover`, `calculate_filename`,
`get_files_to_delete`, `doRollover`, plus the `Log.close` handler loop.
Machine time (`time.gmtime` / `time.localtime` / `time.strftime`) is an
external collaborator; it is modelled by an explicit epoch-seconds
decomposition and a timezone given as an offset function together with a
DST flag function.  File-system listing and deletion are modelled by an
explicit directory listing passed in and the list of names selected for
deletion returned.  Paths are taken without a directory component, so
`os.path.split`/`os.path.join` reduce to the identity.
-/

/-- Rollover unit, the parsed form of the `when` token:
`'S' | 'M' | 'H' | 'D' | 'MIDNIGHT' | 'W0'..'W6'` (`handlers.py` lines 30-57).
`W d` carries the weekday digit (0 = Monday). -/
inductive WhenU where
  | S | M | H | D | MIDNIGHT
  | W (d : Nat)
deriving DecidableEq

/-- Base seconds per unit, set in `__init__` before the `interval`
multiplier is applied (`handlers.py` lines 30-47). -/
def baseSeconds : WhenU → Int
  | .S => 1
  | .M => 60
  | .H => 3600
  | .D => 86400
  | .MIDNIGHT => 86400
  | .W _ => 604800

/-- The guard `self.when == 'MIDNIGHT' or self.when.startswith('W')`
(`handlers.py` line 80): exactly these unit tokens take the calendar
alignment branch of `compute_rollover`. -/
def aligned : WhenU → Bool
  | .MIDNIGHT => true
  | .W _ => true
  | _ => false

/-- Broken-down time, the fields of the tuple returned by `time.gmtime` /
`time.localtime` that the handler reads: `t[3]`=hour, `t[4]`=min,
`t[5]`=sec, `t[6]`=weekday (0 = Monday), `t[-1]`=isdst, plus the
calendar date used by `strftime`. -/
structure Tm where
  year : Int
  mon : Nat
  mday : Nat
  hour : Nat
  minute : Nat
  sec : Nat
  wday : Nat
  isdst : Bool
deriving DecidableEq

/-- A timezone as seen through `time.localtime`: the UTC offset in
seconds in effect at an instant, and whether DST is in effect there.
`time.gmtime` corresponds to offset 0 and isdst 0. -/
structure Tz where
  off : Int → Int
  isdst : Int → Bool

/-- Gregorian date from a count of days since the epoch (standard civil
calendar algorithm; models the calendar part of `time.gmtime`). -/
def civilFromDays (z0 : Int) : Int × Nat × Nat :=
  let z := z0 + 719468
  let era : Int := z / 146097
  let doe : Nat := (z - era * 146097).toNat
  let yoe : Nat := (doe - doe / 1460 + doe / 36524 - doe / 146096) / 365
  let doy : Nat := doe - (365 * yoe + yoe / 4 - yoe / 100)
  let mp : Nat := (5 * doy + 2) / 153
  let d : Nat := doy - (153 * mp + 2) / 5 + 1
  let m : Nat := if mp < 10 then mp + 3 else mp - 9
  let y : Int := era * 400 + (yoe : Int) + (if m ≤ 2 then 1 else 0)
  (y, m, d)

/-- Model of `time.gmtime`: decompose epoch seconds into broken-down
UTC time.  Weekday uses 0 = Monday (the epoch day 1970-01-01 was a
Thursday, weekday 3), matching Python's `tm_wday`. -/
def decompose (t : Int) : Tm :=
  let days : Int := t / 86400
  let sod : Nat := (t % 86400).toNat
  let ymd := civilFromDays days
  { year := ymd.1, mon := ymd.2.1, mday := ymd.2.2,
    hour := sod / 3600, minute := sod % 3600 / 60, sec := sod % 60,
    wday := ((days + 3) % 7).toNat, isdst := false }

/-- Model of `time.gmtime` as used by the handler (isdst is 0). -/
def gmtimeTm (t : Int) : Tm := decompose t

/-- Model of `time.localtime`: broken-down time of the instant shifted
by the zone's UTC offset, with the zone's DST flag. -/
def localtimeTm (tz : Tz) (t : Int) : Tm :=
  { decompose (t + tz.off t) with isdst := tz.isdst t }

/-- The `at_time` anchor (`datetime` time-of-day fields read at
`handlers.py` lines 94-95). -/
structure AtTime where
  hour : Nat
  minute : Nat
  second : Nat
deriving DecidableEq

/-- `rotate_ts` (`handlers.py` lines 91-95): seconds-of-day of the
anchor, or a full day when `atTime is None`. -/
def atSeconds : Option AtTime → Int
  | none => 86400
  | some a => ((a.hour * 60 + a.minute) * 60 + a.second : Nat)

/-- `(cur_hour * 60 + cur_min) * 60 + cur_sec` (`handlers.py` line 97). -/
def secOfDayTm (tm : Tm) : Int := ((tm.hour * 60 + tm.minute) * 60 + tm.sec : Nat)

/-- Handler state: the fields of `CustomTimedRotatingFileHandler` the
rollover logic reads.  `mult` is the `interval` constructor argument;
the effective `self.interval` is `baseSeconds whenU * mult`
(`handlers.py` line 64). -/
structure HState where
  whenU : WhenU
  mult : Nat
  utc : Bool
  atT : Option AtTime
  origFileName : String
  postS : String
  backupCount : Nat
  baseFilename : String
  rolloverAt : Int

/-- `self.interval` after `__init__`: base seconds for the unit times
the requested multiplier (`handlers.py` lines 30-47 and 64). -/
def hInterval (h : HState) : Int := baseSeconds h.whenU * h.mult

/-- The broken-down "now" the handler reads: `time.gmtime(t)` when
`utc` else `time.localtime(t)` (`handlers.py` lines 82-85). -/
def tmOf (utcB : Bool) (tz : Tz) (t : Int) : Tm :=
  if utcB then gmtimeTm t else localtimeTm tz t

/-- `compute_rollover` (`handlers.py` lines 68-141).  Default result is
`current_time + interval`; the `MIDNIGHT`/weekly branch aligns to the
anchor time-of-day (advancing to tomorrow when the anchor has passed)
and, for weekly units, adds the days until the target weekday with a
DST adjustment in non-UTC mode. -/
def compute_rollover (h : HState) (tz : Tz) (t : Int) : Int :=
  if aligned h.whenU then
    let tm := tmOf h.utc tz t
    let rts := atSeconds h.atT
    let r0 := rts - secOfDayTm tm
    let r := if r0 < 0 then r0 + 86400 else r0
    let curDay : Int := if r0 < 0 then (((tm.wday + 1) % 7 : Nat) : Int) else (tm.wday : Int)
    let res := t + r
    match h.whenU with
    | .W target =>
      if curDay ≠ (target : Int) then
        let dtw : Int := if curDay < (target : Int) then (target : Int) - curDay
                         else 6 - curDay + (target : Int) + 1
        let nra := res + dtw * 86400
        if h.utc then nra
        else
          let dstNow := tm.isdst
          let dstAt := tz.isdst nra
          if dstNow ≠ dstAt then (if dstNow then nra + 3600 else nra - 3600) else nra
      else res
    | _ => res
  else t + hInterval h

/-- One decimal digit character. -/
def digC (n : Nat) : Char := Nat.digitChar n

/-- Zero-padded two-digit field (`%m`, `%d`, `%H`, `%M`, `%S`): minimum
width 2, full decimal expansion beyond 99. -/
def pad2 (n : Nat) : List Char :=
  if n < 100 then [digC (n / 10), digC (n % 10)] else (Nat.repr n).data

/-- `%Y` as produced by the platform `strftime` (glibc): the year's
decimal digits, unpadded; for four-digit years this is exactly four
digit characters. -/
def yearChars (y : Int) : List Char :=
  if 1000 ≤ y ∧ y ≤ 9999 then
    [digC (y.toNat / 1000), digC (y.toNat / 100 % 10), digC (y.toNat / 10 % 10), digC (y.toNat % 10)]
  else (Int.repr y).data

/-- `strftime("%Y-%m-%d", tm)`. -/
def fmtD (tm : Tm) : List Char :=
  yearChars tm.year ++ '-' :: pad2 tm.mon ++ '-' :: pad2 tm.mday

/-- `strftime("%Y-%m-%d_%H", tm)`. -/
def fmtH (tm : Tm) : List Char := fmtD tm ++ '_' :: pad2 tm.hour

/-- `strftime("%Y-%m-%d_%H-%M", tm)`. -/
def fmtM (tm : Tm) : List Char := fmtH tm ++ '-' :: pad2 tm.minute

/-- `strftime("%Y-%m-%d_%H-%M-%S", tm)`. -/
def fmtS (tm : Tm) : List Char := fmtM tm ++ '-' :: pad2 tm.sec

/-- `self.suffix` applied to a broken-down time: the per-unit timestamp
format set in `__init__` (`handlers.py` lines 30-55). -/
def fmtSuffix : WhenU → Tm → List Char
  | .S, tm => fmtS tm
  | .M, tm => fmtM tm
  | .H, tm => fmtH tm
  | .D, tm => fmtD tm
  | .MIDNIGHT, tm => fmtD tm
  | .W _, tm => fmtD tm

/-- A decimal digit character test (the regex class `\d`). -/
def isDig (c : Char) : Bool := '0' ≤ c && c ≤ '9'

/-- The anchored regex `^\d{4}-\d{2}-\d{2}$`. -/
def matchYmd : List Char → Bool
  | [a, b, c, d, '-', e, f, '-', g, h] =>
      isDig a && isDig b && isDig c && isDig d && isDig e && isDig f && isDig g && isDig h
  | _ => false

/-- The anchored regex `^\d{4}-\d{2}-\d{2}_\d{2}$`. -/
def matchYmdH : List Char → Bool
  | [a, b, c, d, '-', e, f, '-', g, h, '_', i, j] =>
      isDig a && isDig b && isDig c && isDig d && isDig e && isDig f && isDig g && isDig h &&
      isDig i && isDig j
  | _ => false

/-- The anchored regex `^\d{4}-\d{2}-\d{2}_\d{2}-\d{2}$`. -/
def matchYmdHM : List Char → Bool
  | [a, b, c, d, '-', e, f, '-', g, h, '_', i, j, '-', k, l] =>
      isDig a && isDig b && isDig c && isDig d && isDig e && isDig f && isDig g && isDig h &&
      isDig i && isDig j && isDig k && isDig l
  | _ => false

/-- The anchored regex `^\d{4}-\d{2}-\d{2}_\d{2}-\d{2}-\d{2}$`. -/
def matchYmdHMS : List Char → Bool
  | [a, b, c, d, '-', e, f, '-', g, h, '_', i, j, '-', k, l, '-', m, n] =>
      isDig a && isDig b && isDig c && isDig d && isDig e && isDig f && isDig g && isDig h &&
      isDig i && isDig j && isDig k && isDig l && isDig m && isDig n
  | _ => false

/-- `self.extMatch`: the per-unit matcher regex set in `__init__`
(`handlers.py` lines 30-55). -/
def extMatchFor : WhenU → List Char → Bool
  | .S, s => matchYmdHMS s
  | .M, s => matchYmdHM s
  | .H, s => matchYmdH s
  | .D, s => matchYmd s
  | .MIDNIGHT, s => matchYmd s
  | .W _, s => matchYmd s

/-- Python slice `s[:n]` for `n ≥ 0`. -/
def pyTake (s : String) (n : Nat) : String := ⟨s.data.take n⟩

/-- Python slice `s[-n:]`: the last `n` characters; for `n = 0` the
slice `s[0:]` is the whole string. -/
def pyLastN (s : String) (n : Nat) : String :=
  if n = 0 then s else ⟨s.data.drop (s.data.length - n)⟩

/-- Python slice `s[a:b]` for `0 ≤ a`, clamping like Python. -/
def pyMid (s : String) (a b : Nat) : String := ⟨(s.data.drop a).take (b - a)⟩

/-- The per-file test in `get_files_to_delete` (`handlers.py` lines
161-165): prefix is the base name plus a dot, the name ends with the
postfix, strictly more than prefix-plus-postfix characters, not the
just-opened file, and the middle part matches the unit's regex. -/
def isCandidate (preS postS : String) (ext : List Char → Bool) (newName fname : String) : Bool :=
  pyTake fname preS.length == preS &&
  pyLastN fname postS.length == postS &&
  decide (((fname.length : Int) - (postS.length : Int)) > (preS.length : Int)) &&
  fname != newName &&
  ext (pyMid fname preS.length (fname.length - postS.length)).data

/-- `calculate_filename` (`handlers.py` lines 143-149):
`origFileName + '.' + strftime(suffix, localtime-or-gmtime t) + postfix`. -/
def calcFilename (h : HState) (tz : Tz) (t : Int) : String :=
  h.origFileName ++ "." ++ String.mk (fmtSuffix h.whenU (tmOf h.utc tz t)) ++ h.postS

/-- Lexicographic comparison by code point on character lists: the
order Python's `list.sort()` applies to the candidate file names. -/
def lexLt : List Char → List Char → Bool
  | [], [] => false
  | [], _ :: _ => true
  | _ :: _, [] => false
  | a :: as, b :: bs =>
      if a.toNat < b.toNat then true
      else if b.toNat < a.toNat then false
      else lexLt as bs

/-- Non-strict string order used for the ascending sort. -/
def strLe (a b : String) : Bool := lexLt a.data b.data || a == b

/-- `get_files_to_delete` (`handlers.py` lines 151-172) over an explicit
directory listing: filter the matching candidates (excluding the new
file), sort ascending, keep the newest `backupCount` of them and return
the rest (none when fewer than `backupCount` candidates exist). -/
def get_files_to_delete (h : HState) (listing : List String) (newName : String) : List String :=
  let pre := h.origFileName ++ "."
  let cand := listing.filter (fun f => isCandidate pre h.postS (extMatchFor h.whenU) newName f)
  let srtd := List.insertionSort (fun a b => strLe a b = true) cand
  if srtd.length < h.backupCount then [] else srtd.take (srtd.length - h.backupCount)

/-- Closed form of the `while new_rollover_at <= cur_time` loop in
`doRollover` (`handlers.py` lines 194-195): the least `x + k * ivl`
exceeding `cur` for `k ≥ 0` (for `ivl > 0` this is exactly the loop's
result). -/
def whileBump (cur ivl x : Int) : Int :=
  if x > cur then x else x + ((cur - x) / ivl + 1) * ivl

/-- The DST re-adjustment at the end of `doRollover` (`handlers.py`
lines 197-205), applied for `MIDNIGHT`/weekly units in non-UTC mode. -/
def dstFix (h : HState) (tz : Tz) (cur x : Int) : Int :=
  if aligned h.whenU && !h.utc then
    if tz.isdst cur ≠ tz.isdst x then
      (if tz.isdst cur then x + 3600 else x - 3600)
    else x
  else x

/-- Result of a rollover: the updated handler state and the file names
removed by retention pruning. -/
structure RollOut where
  st : HState
  deleted : List String

/-- `doRollover` (`handlers.py` lines 174-206): close the stream, name
the new file from the stored `rolloverAt` instant, open it, prune when
`backupCount > 0`, then recompute `rolloverAt` (bumping by the interval
while not strictly ahead, then the DST re-adjustment). -/
def doRollover (h : HState) (tz : Tz) (listing : List String) : RollOut :=
  let newName := calcFilename h tz h.rolloverAt
  let dels := if 0 < h.backupCount then get_files_to_delete h listing newName else []
  let nra0 := compute_rollover h tz h.rolloverAt
  let nra1 := whileBump h.rolloverAt (hInterval h) nra0
  let nra2 := dstFix h tz h.rolloverAt nra1
  ⟨{ h with baseFilename := newName, rolloverAt := nra2 }, dels⟩

/-- `TimedRotatingFileHandler.shouldRollover` of the standard library
base class (collaborator): a record arriving at wall-clock `now`
triggers a rollover when `now >= rolloverAt`. -/
def shouldRollover (h : HState) (now : Int) : Bool := decide (h.rolloverAt ≤ now)

/-- One `emit` through the rotating handler at wall-clock `now`
(`BaseRotatingHandler.emit` collaborator): roll over first when due,
then write to the current stream. -/
def emitStep (h : HState) (tz : Tz) (listing : List String) (now : Int) : RollOut :=
  if shouldRollover h now then doRollover h tz listing else ⟨h, []⟩

/-- `str.upper()` on the `when` token. -/
def pyUpper (s : String) : String := String.mk (s.data.map Char.toUpper)

/-- The unit-token dispatch of `__init__` (`handlers.py` lines 23 and
30-57): upper-case the token, accept `S`/`M`/`H`/`D`/`MIDNIGHT`/`W0`-`W6`,
reject anything else with the constructor's `ValueError` message. -/
def parseWhen (w : String) : Except String WhenU :=
  let u := pyUpper w
  if u == "S" then .ok .S
  else if u == "M" then .ok .M
  else if u == "H" then .ok .H
  else if u == "D" then .ok .D
  else if u == "MIDNIGHT" then .ok .MIDNIGHT
  else if pyTake u 1 == "W" then
    match u.data with
    | [_, c] =>
      if c < '0' || '6' < c then .error "Invalid day specified for weekly rollover"
      else .ok (.W (c.toNat - 48))
    | _ => .error "You must specify a day for weekly rollover from 0 to 6 (0 is Monday)"
  else .error "Invalid rollover interval specified"

/-- Handler construction (`handlers.py` `__init__`, lines 15-66): parse
the unit token, then fix the initial file name from the construction
instant and the initial `rolloverAt` from `compute_rollover`. -/
def mkHState (wTok : String) (mult : Nat) (backup : Nat) (utcB : Bool)
    (post orig : String) (atT : Option AtTime) (tz : Tz) (t0 : Int) :
    Except String HState :=
  (parseWhen wTok).map fun u =>
    let h0 : HState :=
      { whenU := u, mult := mult, utc := utcB, atT := atT, origFileName := orig,
        postS := post, backupCount := backup, baseFilename := "", rolloverAt := 0 }
    { h0 with baseFilename := calcFilename h0 tz t0,
              rolloverAt := compute_rollover h0 tz t0 }

/-- The file handler `Log._set_handlers` builds (`log.py` line 395):
`CustomTimedRotatingFileHandler(self.log_path, when='d', interval=1,
backup_cnt=30)` with the defaults `utc=False`, `postfix='.log'`,
`at_time` = today at 00:00:00. -/
def logFileHandler (logPath : String) (tz : Tz) (t0 : Int) : Except String HState :=
  mkHState "d" 1 30 false ".log" logPath (some ⟨0, 0, 0⟩) tz t0

/-- A handler attached to a `Log` as the logging collaborator sees it:
an identifying sink name (the file path for the file handler). -/
structure PyHandler where
  sink : String
deriving DecidableEq

/-- The `for handler in self.handlers: handler.close();
self.removeHandler(handler)` loop of `Log.close` (`log.py` lines
441-443).  Python's `for` walks the live list by index while
`removeHandler` deletes from it, so after removing the element at the
cursor the iteration resumes one slot further along the shrunk list.
Returns the handlers that remain attached. -/
def closeLoopAux : Nat → List PyHandler → Nat → List PyHandler
  | 0, hs, _ => hs
  | fuel + 1, hs, i =>
      if hlt : i < hs.length then
        closeLoopAux fuel (hs.erase (hs.get ⟨i, hlt⟩)) (i + 1)
      else hs

/-- Runs the loop to completion: each executed step removes one element
and advances the cursor, so the loop performs at most `hs.length`
steps and the fuel `hs.length` is never exhausted before the cursor
passes the end of the shrinking list. -/
def closeLoop (hs : List PyHandler) (i : Nat) : List PyHandler :=
  closeLoopAux hs.length hs i

/-- State of a `Log` instance as relevant to emit/close: whether it was
built as a child and the handlers currently attached. -/
structure LogSt where
  isChild : Bool
  handlers : List PyHandler

/-- `Log.close` (`log.py` lines 434-443): a child only emits the
disconnect message; otherwise each visited handler is closed and
removed by the mutating loop. -/
def logClose (st : LogSt) : LogSt :=
  if st.isChild then st else { st with handlers := closeLoop st.handlers 0 }

/-- Outcome of an emit call: the sinks written to, or an exception. -/
inductive EmitOutcome where
  | wrote (sinks : List String)
  | raisedErr (nm : String)
deriving DecidableEq

/-- An emit on a `Log` (collaborator semantics of
`logging.Logger.callHandlers`, which the repository never overrides):
the record is passed to every attached handler — a closed
`FileHandler` reopens its stream on emit — and no lifecycle check of
any kind is performed, so no exception is raised. -/
def logEmit (st : LogSt) : EmitOutcome :=
  .wrote (st.handlers.map (·.sink))

/-! ### Shared concrete environments and basic facts -/

/-- A timezone view with offset 0 and DST never set (plain UTC wall
clock; used to instantiate non-UTC runs concretely). -/
def tzZero : Tz := ⟨fun _ => 0, fun _ => false⟩

/-- A fixed-offset timezone with no DST transitions. -/
def tzFixed (z : Int) : Tz := ⟨fun _ => z, fun _ => false⟩

theorem secOfDay_decompose (t : Int) : secOfDayTm (decompose t) = t % 86400 := by
  have h0 : (0 : Int) ≤ t % 86400 := Int.emod_nonneg t (by norm_num)
  simp only [secOfDayTm, decompose]
  omega

theorem secOfDay_localtime (tz : Tz) (t : Int) :
    secOfDayTm (localtimeTm tz t) = (t + tz.off t) % 86400 := by
  have : secOfDayTm (localtimeTm tz t) = secOfDayTm (decompose (t + tz.off t)) := rfl
  rw [this, secOfDay_decompose]

theorem wday_decompose_le (t : Int) : (decompose t).wday ≤ 6 := by
  have h7 : (t / 86400 + 3) % 7 < 7 :=
    Int.emod_lt_of_pos _ (by norm_num)
  have h0 : (0 : Int) ≤ (t / 86400 + 3) % 7 :=
    Int.emod_nonneg _ (by norm_num)
  simp only [decompose]
  omega

theorem secOfDay_tmOf_bounds (u : Bool) (tz : Tz) (t : Int) :
    0 ≤ secOfDayTm (tmOf u tz t) ∧ secOfDayTm (tmOf u tz t) < 86400 := by
  rcases u with _ | _
  · have h : tmOf false tz t = localtimeTm tz t := rfl
    rw [h, secOfDay_localtime]
    exact ⟨Int.emod_nonneg _ (by norm_num), Int.emod_lt_of_pos _ (by norm_num)⟩
  · have h : tmOf true tz t = decompose t := rfl
    rw [h, secOfDay_decompose]
    exact ⟨Int.emod_nonneg _ (by norm_num), Int.emod_lt_of_pos _ (by norm_num)⟩

theorem wday_tmOf_le (u : Bool) (tz : Tz) (t : Int) : (tmOf u tz t).wday ≤ 6 := by
  rcases u with _ | _
  · have h : (tmOf false tz t).wday = (decompose (t + tz.off t)).wday := rfl
    rw [h]
    exact wday_decompose_le _
  · have h : tmOf true tz t = decompose t := rfl
    rw [h]
    exact wday_decompose_le _

theorem atSeconds_nonneg (a : Option AtTime) : 0 ≤ atSeconds a := by
  rcases a with _ | a
  · simp [atSeconds]
  · simp only [atSeconds]
    omega

theorem baseSeconds_pos (u : WhenU) : 0 < baseSeconds u := by
  cases u <;> simp [baseSeconds]

/-! ### C2: advancement of `compute_rollover` -/

/-- A `MIDNIGHT` handler in UTC mode anchored at 00:00:00 (the
constructor's default anchor), interval multiplier 1. -/
def hMidUtc : HState :=
  ⟨.MIDNIGHT, 1, true, some ⟨0, 0, 0⟩, "app", ".log", 0, "", 0⟩

/-- A seconds-unit handler with interval multiplier 5. -/
def hSec5 : HState :=
  ⟨.S, 5, true, none, "app", ".log", 0, "", 0⟩

/-- C2 fails as stated: invoking a `MIDNIGHT` handler anchored at
00:00:00 exactly at the anchor instant (epoch 0 is 00:00:00 UTC)
returns the input itself, not a strictly larger value. -/
theorem c2_counterexample :
    compute_rollover hMidUtc tzZero 0 = 0 ∧ ¬ (0 < compute_rollover hMidUtc tzZero 0) := by
  constructor
  · decide
  · intro hlt
    have h0 : compute_rollover hMidUtc tzZero 0 = 0 := by decide
    omega

/-- C2 (amended): for every unit and multiplier `m ≥ 1`,
`compute_rollover t ≥ t`; for the non-aligned units (`S`/`M`/`H`/`D`)
the result is strictly greater.  (The aligned units can return exactly
`t` when invoked precisely at the anchor, per the counterexample.) -/
theorem c2_rollover_advances (h : HState) (tz : Tz) (t : Int)
    (hm : 1 ≤ h.mult) (hw : ∀ d, h.whenU = .W d → d ≤ 6) :
    t ≤ compute_rollover h tz t ∧
      (aligned h.whenU = false → t < compute_rollover h tz t) := by
  obtain ⟨u, m, uc, aT, o, p, b, bf, ra⟩ := h
  simp only at hm hw
  have hsod := secOfDay_tmOf_bounds uc tz t
  have hat := atSeconds_nonneg aT
  cases u with
  | S =>
    simp only [compute_rollover, aligned, hInterval, baseSeconds, Bool.false_eq_true,
      if_false]
    exact ⟨by omega, fun _ => by omega⟩
  | M =>
    simp only [compute_rollover, aligned, hInterval, baseSeconds, Bool.false_eq_true,
      if_false]
    exact ⟨by omega, fun _ => by omega⟩
  | H =>
    simp only [compute_rollover, aligned, hInterval, baseSeconds, Bool.false_eq_true,
      if_false]
    exact ⟨by omega, fun _ => by omega⟩
  | D =>
    simp only [compute_rollover, aligned, hInterval, baseSeconds, Bool.false_eq_true,
      if_false]
    exact ⟨by omega, fun _ => by omega⟩
  | MIDNIGHT =>
    refine ⟨?_, by simp [aligned]⟩
    simp only [compute_rollover, aligned, if_true]
    split_ifs <;> omega
  | W target =>
    have htar : target ≤ 6 := hw target rfl
    have hwd := wday_tmOf_le uc tz t
    refine ⟨?_, by simp [aligned]⟩
    simp only [compute_rollover, aligned, if_true]
    split_ifs <;> omega

/-- Witness for C2 (amended) at concrete inputs. -/
theorem c2_witness :
    (1 ≤ hMidUtc.mult ∧ (0 : Int) ≤ compute_rollover hMidUtc tzZero 0) ∧
    (1 ≤ hSec5.mult ∧ (3 : Int) < compute_rollover hSec5 tzZero 3) := by
  constructor
  · exact ⟨by decide,
      (c2_rollover_advances hMidUtc tzZero 0 (by decide) (by intro d hd; cases hd)).1⟩
  · exact ⟨by decide,
      (c2_rollover_advances hSec5 tzZero 3 (by decide) (by intro d hd; cases hd)).2 (by decide)⟩

/-! ### C3: daily (MIDNIGHT) alignment to tomorrow's anchor -/

/-- A `MIDNIGHT` handler in local-time mode anchored at 00:00:00. -/
def hMidLocal : HState :=
  ⟨.MIDNIGHT, 1, false, some ⟨0, 0, 0⟩, "app", ".log", 0, "", 0⟩

/-- C3: daily rollover, anchor 00:00:00, non-UTC (fixed-offset zone
`z`): when the local time-of-day is past the anchor, the next rollover
is the epoch instant of tomorrow's local midnight — the result is
`t` plus the seconds remaining in the local day, its local
seconds-of-day is 0, and its local day index is one past `t`'s. -/
theorem c3_daily_tomorrow_anchor (z t : Int)
    (hpast : 0 < (t + z) % 86400) :
    compute_rollover hMidLocal (tzFixed z) t = t + (86400 - (t + z) % 86400) ∧
    (compute_rollover hMidLocal (tzFixed z) t + z) % 86400 = 0 ∧
    (compute_rollover hMidLocal (tzFixed z) t + z) / 86400
      = (t + z) / 86400 + 1 := by
  have h1 : tmOf false (tzFixed z) t = localtimeTm (tzFixed z) t := rfl
  have hsod : secOfDayTm (tmOf false (tzFixed z) t) = (t + z) % 86400 := by
    rw [h1, secOfDay_localtime]
    rfl
  have hmain : compute_rollover hMidLocal (tzFixed z) t
      = t + (86400 - (t + z) % 86400) := by
    simp only [compute_rollover, hMidLocal, aligned, if_true, atSeconds]
    rw [hsod]
    split_ifs <;> omega
  refine ⟨hmain, ?_, ?_⟩ <;> rw [hmain] <;> omega

/-- Witness for C3 at the spec's example: 2024-03-10T14:15:00 in a
UTC-5 zone (epoch 1710098100) rolls to 2024-03-11T00:00:00 local
(epoch 1710133200). -/
theorem c3_witness :
    0 < (1710098100 + -18000 : Int) % 86400 ∧
    compute_rollover hMidLocal (tzFixed (-18000)) 1710098100 = 1710133200 := by
  have h := c3_daily_tomorrow_anchor (-18000) 1710098100 (by decide)
  refine ⟨by decide, ?_⟩
  rw [h.1]
  decide

/-! ### C4: weekly rollover day counts -/

/-- A weekly handler targeting Sunday (`W6`), UTC, anchor 00:00:00. -/
def hW6u : HState :=
  ⟨.W 6, 1, true, some ⟨0, 0, 0⟩, "app", ".log", 0, "", 0⟩

/-- A weekly handler targeting Thursday (`W3`), UTC, anchor 00:00:00. -/
def hW3u : HState :=
  ⟨.W 3, 1, true, some ⟨0, 0, 0⟩, "app", ".log", 0, "", 0⟩

theorem wday_decompose_eq (t : Int) (d : Nat) (hd : (t / 86400 + 3) % 7 = (d : Int)) :
    (decompose t).wday = d := by
  simp only [decompose]
  omega

/-- C4: with the target weekday Sunday(6) and the current day
Wednesday(2), strictly past the 00:00:00 anchor, the weekly branch adds
exactly 3 days beyond the alignment to the next day's start (the
"later in week" branch, applied to the advanced notional day 3); with
target Thursday(3) and current day Saturday(5) it adds exactly 4 days
(the "wrapped" branch, applied to the advanced notional day 6). -/
theorem c4_weekly_day_counts (t s : Int)
    (hW : (t / 86400 + 3) % 7 = 2) (hS : (s / 86400 + 3) % 7 = 5)
    (hWp : 0 < t % 86400) (hSp : 0 < s % 86400) :
    compute_rollover hW6u tzZero t = (t + (86400 - t % 86400)) + 3 * 86400 ∧
    compute_rollover hW3u tzZero s = (s + (86400 - s % 86400)) + 4 * 86400 := by
  have htmT : tmOf true tzZero t = decompose t := rfl
  have htmS : tmOf true tzZero s = decompose s := rfl
  have hsT : secOfDayTm (decompose t) = t % 86400 := secOfDay_decompose t
  have hsS : secOfDayTm (decompose s) = s % 86400 := secOfDay_decompose s
  have hwT : (decompose t).wday = 2 := wday_decompose_eq t 2 hW
  have hwS : (decompose s).wday = 5 := wday_decompose_eq s 5 hS
  constructor
  · simp only [compute_rollover, hW6u, aligned, if_true, atSeconds, htmT, hsT, hwT]
    split_ifs <;> omega
  · simp only [compute_rollover, hW3u, aligned, if_true, atSeconds, htmS, hsS, hwS]
    split_ifs <;> omega

/-- Witness for C4: a Wednesday 14:15:00 UTC (epoch 569700) and a
Saturday 14:15:00 UTC (epoch 224100). -/
theorem c4_witness :
    ((569700 : Int) / 86400 + 3) % 7 = 2 ∧ ((224100 : Int) / 86400 + 3) % 7 = 5 ∧
    compute_rollover hW6u tzZero 569700 = 864000 ∧
    compute_rollover hW3u tzZero 224100 = 604800 := by
  have h := c4_weekly_day_counts 569700 224100 (by decide) (by decide) (by decide) (by decide)
  refine ⟨by decide, by decide, ?_, ?_⟩
  · rw [h.1]; decide
  · rw [h.2]; decide

/-! ### C10: the `D` unit is unaligned; the `Log` file handler uses it -/

/-- C10: a handler whose unit token parsed to `D` performs no
anchor/midnight alignment — `compute_rollover` is always
`t + 86400 * mult`, ignoring `atTime`; the alignment branch is taken by
exactly the `MIDNIGHT` and `W0`..`W6` units; and the `Log` class's own
file handler is built from the token `'d'`, so it gets the unaligned
behaviour `t + 86400`. -/
theorem c10_d_unaligned :
    (∀ (h : HState), h.whenU = .D → ∀ (tz : Tz) (t : Int),
        compute_rollover h tz t = t + 86400 * h.mult) ∧
    (∀ u : WhenU, aligned u = true ↔ (u = .MIDNIGHT ∨ ∃ d, u = .W d)) ∧
    parseWhen "d" = .ok .D ∧
    (∀ (p : String) (tz : Tz) (t0 : Int) (h : HState),
        logFileHandler p tz t0 = .ok h →
        h.whenU = .D ∧ h.mult = 1 ∧ h.backupCount = 30 ∧
          ∀ t : Int, compute_rollover h tz t = t + 86400) := by
  have hparse : parseWhen "d" = .ok .D := rfl
  refine ⟨?_, ?_, hparse, ?_⟩
  · intro h hD tz t
    obtain ⟨u, m, uc, aT, o, p, b, bf, ra⟩ := h
    simp only at hD
    subst hD
    simp [compute_rollover, aligned, hInterval, baseSeconds]
  · intro u
    cases u <;> simp [aligned]
  · intro p tz t0 h hh
    simp only [logFileHandler, mkHState, hparse, Except.map] at hh
    have hh2 := hh.symm
    injection hh2 with hh3
    subst hh3
    refine ⟨rfl, rfl, rfl, fun t => ?_⟩
    simp [compute_rollover, aligned, hInterval, baseSeconds]

/-- A `D`-unit handler with interval multiplier 2. -/
def hD2 : HState := ⟨.D, 2, true, none, "app", ".log", 0, "", 0⟩

/-- The concrete state `logFileHandler "svc"` builds at construction
instant 0 in the zero-offset zone. -/
def logFhExample : HState :=
  ⟨.D, 1, false, some ⟨0, 0, 0⟩, "svc", ".log", 30, "svc.1970-01-01.log", 86400⟩

/-- Witness for C10 at concrete inputs. -/
theorem c10_witness :
    hD2.whenU = .D ∧ compute_rollover hD2 tzZero 10 = 10 + 86400 * hD2.mult ∧
    logFileHandler "svc" tzZero 0 = .ok logFhExample ∧
    compute_rollover logFhExample tzZero 5 = 5 + 86400 := by
  have hfh : logFileHandler "svc" tzZero 0 = .ok logFhExample := rfl
  exact ⟨rfl, c10_d_unaligned.1 hD2 rfl tzZero 10, hfh,
    (c10_d_unaligned.2.2.2 "svc" tzZero 0 logFhExample hfh).2.2.2 5⟩

/-! ### C7: new file named from the due rollover instant -/

/-- C7: when an emit at wall-clock `now` triggers a rollover, the new
file path is computed by formatting the stored `rolloverAt` instant —
`origFileName + '.' + strftime(suffix, rolloverAt) + postfix` — for
every `now`, so the name never depends on the wall-clock time at which
the rollover actually runs. -/
theorem c7_filename_from_rolloverAt (h : HState) (tz : Tz) (listing : List String)
    (now : Int) (hdue : shouldRollover h now = true) :
    (emitStep h tz listing now).st.baseFilename
        = h.origFileName ++ "." ++
          String.mk (fmtSuffix h.whenU (tmOf h.utc tz h.rolloverAt)) ++ h.postS ∧
    (emitStep h tz listing now).st.baseFilename = calcFilename h tz h.rolloverAt := by
  simp [emitStep, hdue, doRollover, calcFilename]

/-- A `D`-unit handler about to roll at 2024-01-04 00:00:00 UTC. -/
def hDJan : HState :=
  ⟨.D, 1, true, some ⟨0, 0, 0⟩, "service", ".log", 3, "service.2024-01-03.log", 1704326400⟩

/-- Witness for C7: rolling over during an emit 16 hours late still
names the file for the due instant 2024-01-04. -/
theorem c7_witness :
    shouldRollover hDJan 1704384000 = true ∧
    (emitStep hDJan tzZero [] 1704384000).st.baseFilename = "service.2024-01-04.log" := by
  refine ⟨by decide, ?_⟩
  rw [(c7_filename_from_rolloverAt hDJan tzZero [] 1704384000 (by decide)).2]
  decide

/-! ### C1: retention boundary after a rollover -/

/-- Directory listing with exactly 3 pre-existing matching files plus
the newly opened `service.2024-01-04.log` (4 matching files total). -/
def listing3 : List String :=
  ["service.2024-01-01.log", "service.2024-01-02.log",
   "service.2024-01-03.log", "service.2024-01-04.log"]

/-- Directory listing with 4 pre-existing matching files plus the newly
opened one (5 matching files total). -/
def listing4 : List String :=
  ["service.2023-12-31.log", "service.2024-01-01.log",
   "service.2024-01-02.log", "service.2024-01-03.log", "service.2024-01-04.log"]

/-- Directory listing with only 2 pre-existing matching files plus the
newly opened one (3 matching files total). -/
def listing2 : List String :=
  ["service.2024-01-02.log", "service.2024-01-03.log", "service.2024-01-04.log"]

/-- C1 fails as stated: with `retentionCount = 3` (the handler
`hDJan`), 3 pre-existing matching files and the newly opened
`service.2024-01-04.log`, the rollover deletes nothing — not "exactly
one file (the oldest)".  The candidate list excludes the new file, so
exactly `retentionCount` candidates remain and
`result[:len(result) - backupCount]` is empty. -/
theorem c1_counterexample :
    (doRollover hDJan tzZero listing3).deleted = [] ∧
    ¬ ((doRollover hDJan tzZero listing3).deleted = ["service.2024-01-01.log"]) := by
  refine ⟨by decide, ?_⟩
  intro hcontra
  have h0 : (doRollover hDJan tzZero listing3).deleted = [] := by decide
  rw [h0] at hcontra
  cases hcontra

/-- C1 (amended): with `retentionCount = 3`, the rollover deletes
nothing while at most 3 pre-existing matching files exist besides the
newly opened one; the boundary sits one file later — with 4
pre-existing matching files plus the new one, exactly one file, the
oldest, is deleted. -/
theorem c1_retention_boundary :
    (doRollover hDJan tzZero listing4).deleted = ["service.2023-12-31.log"] ∧
    (doRollover hDJan tzZero listing3).deleted = [] ∧
    (doRollover hDJan tzZero listing2).deleted = [] := by
  refine ⟨by decide, by decide, by decide⟩

/-! ### C6: pruning touches only the writer's own pattern -/

theorem list_split_three (l pre post : List Char)
    (hpre : l.take pre.length = pre)
    (hpost : l.drop (l.length - post.length) = post)
    (hlen : pre.length + post.length < l.length) :
    l = pre ++ ((l.drop pre.length).take (l.length - post.length - pre.length)) ++ post ∧
    (l.drop pre.length).take (l.length - post.length - pre.length) ≠ [] := by
  set mid := (l.drop pre.length).take (l.length - post.length - pre.length) with hmid
  have h3 : (l.drop pre.length).drop (l.length - post.length - pre.length)
      = l.drop (l.length - post.length) := by
    rw [List.drop_drop]
    congr 1
    omega
  have h2 : l.drop pre.length = mid ++ l.drop (l.length - post.length) := by
    rw [hmid, ← h3]
    exact (List.take_append_drop _ _).symm
  have h1 : l = pre ++ (mid ++ post) := by
    conv_lhs => rw [← List.take_append_drop pre.length l]
    rw [hpre, h2, hpost]
  have hmlen : mid.length = l.length - post.length - pre.length := by
    rw [hmid, List.length_take, List.length_drop]
    omega
  refine ⟨by rw [h1, List.append_assoc], ?_⟩
  intro hnil
  rw [hnil] at hmlen
  simp at hmlen
  omega

/-- C6: retention pruning during a rollover only ever selects files of
the writer's own pattern — the base filename, a dot, a middle part
accepted by the unit's matcher regex, then the postfix — taken from the
given directory listing, and never the just-opened new file.  Every
other file is untouched. -/
theorem c6_prune_frame (h : HState) (tz : Tz) (listing : List String) (f : String)
    (hf : f ∈ (doRollover h tz listing).deleted) :
    f ∈ listing ∧ f ≠ calcFilename h tz h.rolloverAt ∧
    ∃ mid : List Char,
      f.data = (h.origFileName ++ ".").data ++ mid ++ h.postS.data ∧
      extMatchFor h.whenU mid = true ∧ mid ≠ [] := by
  simp only [doRollover] at hf
  by_cases hb : 0 < h.backupCount
  swap
  · rw [if_neg hb] at hf
    cases hf
  rw [if_pos hb] at hf
  simp only [get_files_to_delete] at hf
  set pre := h.origFileName ++ "." with hpre
  set newName := calcFilename h tz h.rolloverAt with hnew
  set cand := listing.filter
    (fun g => isCandidate pre h.postS (extMatchFor h.whenU) newName g) with hcand
  set srtd := List.insertionSort (fun a b => strLe a b = true) cand with hsrtd
  have hmem : f ∈ srtd := by
    by_cases hc : srtd.length < h.backupCount
    · rw [if_pos hc] at hf
      cases hf
    · rw [if_neg hc] at hf
      exact List.mem_of_mem_take hf
  have hcandmem : f ∈ cand := by
    rw [hsrtd] at hmem
    exact (List.mem_insertionSort _).mp hmem
  obtain ⟨hlst, hpred⟩ := List.mem_filter.mp hcandmem
  simp only [isCandidate, Bool.and_eq_true, beq_iff_eq, bne_iff_ne, decide_eq_true_eq] at hpred
  obtain ⟨⟨⟨⟨htk, hlastn⟩, hlong⟩, hne⟩, hext⟩ := hpred
  have hlen_f : f.length = f.data.length := rfl
  have hlen_pre : pre.length = pre.data.length := rfl
  have hlen_post : h.postS.length = h.postS.data.length := rfl
  have hq : h.postS.length ≠ 0 := by
    intro h0
    rw [pyLastN, if_pos h0] at hlastn
    have hfl : f.length = h.postS.length := congrArg String.length hlastn
    omega
  have htk2 : f.data.take pre.length = pre.data := congrArg String.data htk
  have hlastn2 : f.data.drop (f.data.length - h.postS.length) = h.postS.data := by
    have h1 := congrArg String.data hlastn
    rw [pyLastN, if_neg hq] at h1
    exact h1
  have hlen2 : pre.data.length + h.postS.data.length < f.data.length := by omega
  have hsplit := list_split_three f.data pre.data h.postS.data
      (by rw [← hlen_pre]; exact htk2)
      (by rw [← hlen_post]; exact hlastn2)
      hlen2
  refine ⟨hlst, hne,
    (f.data.drop pre.data.length).take (f.data.length - h.postS.data.length - pre.data.length),
      hsplit.1, ?_, hsplit.2⟩
  have hmid : (pyMid f pre.length (f.length - h.postS.length)).data
      = (f.data.drop pre.data.length).take (f.data.length - h.postS.data.length - pre.data.length) :=
    rfl
  rw [← hmid]
  exact hext

/-- Witness for C6: the one file pruned in the `listing4` scenario is a
listed file of the writer's pattern and is not the new file. -/
theorem c6_witness :
    "service.2023-12-31.log" ∈ (doRollover hDJan tzZero listing4).deleted ∧
    "service.2023-12-31.log" ∈ listing4 ∧
    "service.2023-12-31.log" ≠ calcFilename hDJan tzZero hDJan.rolloverAt := by
  have hm : "service.2023-12-31.log" ∈ (doRollover hDJan tzZero listing4).deleted := by decide
  have hc := c6_prune_frame hDJan tzZero listing4 "service.2023-12-31.log" hm
  exact ⟨hm, hc.1, hc.2.1⟩

/-! ### C8: monotonicity of the stored rollover instant -/

theorem whileBump_gt (cur ivl x : Int) (hiv : 0 < ivl) : cur < whileBump cur ivl x := by
  rw [whileBump]
  split_ifs with hgt
  · exact hgt
  · have h1 := Int.ediv_add_emod (cur - x) ivl
    have h2 := Int.emod_lt_of_pos (cur - x) hiv
    nlinarith [h1, h2]

theorem hInterval_pos (h : HState) (hm : 1 ≤ h.mult) : 0 < hInterval h := by
  have hb := baseSeconds_pos h.whenU
  have hm2 : (0 : Int) < (h.mult : Int) := by exact_mod_cast hm
  exact mul_pos hb hm2

/-- A `MIDNIGHT` local-time handler due to roll 60 seconds before the
local midnight at epoch 86400. -/
def hC8 : HState :=
  ⟨.MIDNIGHT, 1, false, some ⟨0, 0, 0⟩, "app", ".log", 0, "", 86340⟩

/-- A zone (offset 0) whose DST flag turns on at epoch 86400 — the
shape of a zone whose DST transition falls on the rollover boundary
itself, as in zones that shift at local midnight. -/
def tzFlip : Tz := ⟨fun _ => 0, fun t => decide (86400 ≤ t)⟩

/-- C8 fails as stated: rolling `hC8` (due at 86340, next alignment
86400) under `tzFlip` leaves `rolloverAt = 82800`, which is *not*
strictly greater than the instant just rolled — the DST re-adjustment
runs after the catch-up loop and subtracts an hour. -/
theorem c8_counterexample :
    (doRollover hC8 tzFlip []).st.rolloverAt = 82800 ∧
    ¬ (hC8.rolloverAt < (doRollover hC8 tzFlip []).st.rolloverAt) := by
  refine ⟨by decide, ?_⟩
  intro hlt
  have he : (doRollover hC8 tzFlip []).st.rolloverAt = 82800 := by decide
  rw [he] at hlt
  have : hC8.rolloverAt = 86340 := rfl
  omega

/-- C8 (amended): `doRollover` recomputes the instant and advances it
by the interval until strictly past the instant just rolled; the stored
result is strictly greater whenever the final DST correction does not
subtract an hour — i.e. unless the unit is aligned, the mode non-UTC,
DST is off at the rolled instant and on at the recomputed one (in which
case, per the counterexample, the stored instant can fall at or before
the rolled one). -/
theorem c8_rolloverAt_increases (h : HState) (tz : Tz) (listing : List String)
    (hm : 1 ≤ h.mult)
    (hns : aligned h.whenU = false ∨ h.utc = true ∨ tz.isdst h.rolloverAt = true ∨
      tz.isdst (whileBump h.rolloverAt (hInterval h) (compute_rollover h tz h.rolloverAt))
        = tz.isdst h.rolloverAt) :
    h.rolloverAt < (doRollover h tz listing).st.rolloverAt := by
  have hb : h.rolloverAt <
      whileBump h.rolloverAt (hInterval h) (compute_rollover h tz h.rolloverAt) :=
    whileBump_gt _ _ _ (hInterval_pos h hm)
  show h.rolloverAt < dstFix h tz h.rolloverAt
      (whileBump h.rolloverAt (hInterval h) (compute_rollover h tz h.rolloverAt))
  set nra1 := whileBump h.rolloverAt (hInterval h) (compute_rollover h tz h.rolloverAt)
  rw [dstFix]
  split_ifs with hA hN hD
  · omega
  · -- DST flip with DST off at the rolled instant: excluded by `hns`
    simp only [Bool.and_eq_true, Bool.not_eq_true', Bool.not_eq_false] at hA hD
    rcases hns with hns | hns | hns | hns
    · rw [hns] at hA
      cases hA.1
    · rw [hns] at hA
      cases hA.2
    · rw [hns] at hD
      exact absurd rfl hD
    · exact absurd hns.symm hN
  · omega
  · omega

/-- Witness for C8 (amended): under a zone with no DST transitions the
rolled instant strictly increases. -/
theorem c8_witness : hC8.rolloverAt < (doRollover hC8 tzZero []).st.rolloverAt :=
  c8_rolloverAt_increases hC8 tzZero [] (by decide) (Or.inr (Or.inr (Or.inr rfl)))

/-! ### C5: emit after close -/

/-- C5 fails as stated: closing a non-child `Log` with the usual
console handler plus file handler pair leaves the file handler
attached (the close loop mutates the list it iterates), so an emit
after close still writes to the log file and raises nothing — it
neither fails with a `LifecycleError` (no such error exists in the
code) nor is it even dropped. -/
theorem c5_counterexample :
    logEmit (logClose ⟨false, [⟨"console"⟩, ⟨"app.log"⟩]⟩) = .wrote ["app.log"] ∧
    logEmit (logClose ⟨false, [⟨"console"⟩, ⟨"app.log"⟩]⟩) ≠ .raisedErr "LifecycleError" := by
  constructor
  · decide
  · intro hcontra
    have h1 : logEmit (logClose ⟨false, [⟨"console"⟩, ⟨"app.log"⟩]⟩) = .wrote ["app.log"] := by
      decide
    rw [h1] at hcontra
    cases hcontra

/-- C5 (amended): a `Log.close` on a non-child instance with two
attached handlers removes only the first one — the loop in `close`
deletes from the list it is iterating, skipping every second handler —
and a subsequent emit writes through the surviving handler and raises
no error of any kind; nothing resembling a `LifecycleError` is ever
raised. -/
theorem c5_emit_after_close (a b : PyHandler) :
    (logClose ⟨false, [a, b]⟩).handlers = [b] ∧
    logEmit (logClose ⟨false, [a, b]⟩) = .wrote [b.sink] ∧
    ∀ e : String, logEmit (logClose ⟨false, [a, b]⟩) ≠ .raisedErr e := by
  have h1 : closeLoop [a, b] 0 = [b] := by
    simp [closeLoop, closeLoopAux, List.erase, beq_self_eq_true]
  have h2 : logClose ⟨false, [a, b]⟩ = ⟨false, [b]⟩ := by
    simp [logClose, h1]
  refine ⟨by rw [h2], by rw [h2]; rfl, fun e hcontra => ?_⟩
  rw [h2] at hcontra
  cases hcontra

/-! ### C9: filename suffix round-trip -/

theorem isDig_digC (k : Nat) (hk : k < 10) : isDig (digC k) = true := by
  interval_cases k <;> decide

/-- Field ranges of a broken-down time as `time.gmtime` /
`time.localtime` produce them. -/
def TmValid (tm : Tm) : Prop :=
  1 ≤ tm.mon ∧ tm.mon ≤ 12 ∧ 1 ≤ tm.mday ∧ tm.mday ≤ 31 ∧
    tm.hour ≤ 23 ∧ tm.minute ≤ 59 ∧ tm.sec ≤ 59

instance (tm : Tm) : Decidable (TmValid tm) := by
  unfold TmValid
  infer_instance

theorem pad2_eq (n : Nat) (hn : n < 100) : pad2 n = [digC (n / 10), digC (n % 10)] := by
  rw [pad2, if_pos hn]

theorem yearChars_eq (y : Int) (hy : 1000 ≤ y ∧ y ≤ 9999) :
    yearChars y = [digC (y.toNat / 1000), digC (y.toNat / 100 % 10),
      digC (y.toNat / 10 % 10), digC (y.toNat % 10)] := by
  rw [yearChars, if_pos hy]

theorem fmtD_shape (tm : Tm) (hv : TmValid tm) (hy : 1000 ≤ tm.year ∧ tm.year ≤ 9999) :
    fmtD tm = [digC (tm.year.toNat / 1000), digC (tm.year.toNat / 100 % 10),
      digC (tm.year.toNat / 10 % 10), digC (tm.year.toNat % 10), '-',
      digC (tm.mon / 10), digC (tm.mon % 10), '-',
      digC (tm.mday / 10), digC (tm.mday % 10)] := by
  obtain ⟨h1, h2, h3, h4, h5, h6, h7⟩ := hv
  rw [fmtD, yearChars_eq tm.year hy, pad2_eq tm.mon (by omega), pad2_eq tm.mday (by omega)]
  rfl

theorem fmtD_accepted (tm : Tm) (hv : TmValid tm) (hy : 1000 ≤ tm.year ∧ tm.year ≤ 9999) :
    matchYmd (fmtD tm) = true := by
  obtain ⟨hm1, hm2, hd1, hd2, hh, hmin, hsec⟩ := id hv
  rw [fmtD_shape tm hv hy]
  simp only [matchYmd, Bool.and_eq_true]
  have hyy : tm.year.toNat ≤ 9999 := by omega
  refine ⟨⟨⟨⟨⟨⟨⟨?_, ?_⟩, ?_⟩, ?_⟩, ?_⟩, ?_⟩, ?_⟩, ?_⟩ <;>
    exact isDig_digC _ (by omega)

theorem fmtH_accepted (tm : Tm) (hv : TmValid tm) (hy : 1000 ≤ tm.year ∧ tm.year ≤ 9999) :
    matchYmdH (fmtH tm) = true := by
  obtain ⟨hm1, hm2, hd1, hd2, hh, hmin, hsec⟩ := id hv
  rw [fmtH, fmtD_shape tm hv hy, pad2_eq tm.hour (by omega)]
  simp only [List.cons_append, List.nil_append, matchYmdH, Bool.and_eq_true]
  have hyy : tm.year.toNat ≤ 9999 := by omega
  refine ⟨⟨⟨⟨⟨⟨⟨⟨⟨?_, ?_⟩, ?_⟩, ?_⟩, ?_⟩, ?_⟩, ?_⟩, ?_⟩, ?_⟩, ?_⟩ <;>
    exact isDig_digC _ (by omega)

theorem fmtM_accepted (tm : Tm) (hv : TmValid tm) (hy : 1000 ≤ tm.year ∧ tm.year ≤ 9999) :
    matchYmdHM (fmtM tm) = true := by
  obtain ⟨hm1, hm2, hd1, hd2, hh, hmin, hsec⟩ := id hv
  rw [fmtM, fmtH, fmtD_shape tm hv hy, pad2_eq tm.hour (by omega),
    pad2_eq tm.minute (by omega)]
  simp only [List.cons_append, List.nil_append, List.append_assoc, matchYmdHM,
    Bool.and_eq_true]
  have hyy : tm.year.toNat ≤ 9999 := by omega
  refine ⟨⟨⟨⟨⟨⟨⟨⟨⟨⟨⟨?_, ?_⟩, ?_⟩, ?_⟩, ?_⟩, ?_⟩, ?_⟩, ?_⟩, ?_⟩, ?_⟩, ?_⟩, ?_⟩ <;>
    exact isDig_digC _ (by omega)

theorem fmtS_accepted (tm : Tm) (hv : TmValid tm) (hy : 1000 ≤ tm.year ∧ tm.year ≤ 9999) :
    matchYmdHMS (fmtS tm) = true := by
  obtain ⟨hm1, hm2, hd1, hd2, hh, hmin, hsec⟩ := id hv
  rw [fmtS, fmtM, fmtH, fmtD_shape tm hv hy, pad2_eq tm.hour (by omega),
    pad2_eq tm.minute (by omega), pad2_eq tm.sec (by omega)]
  simp only [List.cons_append, List.nil_append, List.append_assoc, matchYmdHMS,
    Bool.and_eq_true]
  have hyy : tm.year.toNat ≤ 9999 := by omega
  refine ⟨⟨⟨⟨⟨⟨⟨⟨⟨⟨⟨⟨⟨?_, ?_⟩, ?_⟩, ?_⟩, ?_⟩, ?_⟩, ?_⟩, ?_⟩, ?_⟩, ?_⟩, ?_⟩, ?_⟩, ?_⟩, ?_⟩ <;>
    exact isDig_digC _ (by omega)

/-- The broken-down time of epoch 253402300800: 10000-01-01 00:00:00
UTC, a producible timestamp whose year has five digits. -/
def tm10000 : Tm := ⟨10000, 1, 1, 0, 0, 0, 5, false⟩

/-- C9 fails as stated: the suffix the formatter produces for the
(producible) instant 253402300800 — `10000-01-01` — is rejected by the
matcher, because `\d{4}` requires exactly four year digits.  So not
every producible suffix is accepted. -/
theorem c9_counterexample :
    decompose 253402300800 = tm10000 ∧ TmValid tm10000 ∧
    extMatchFor .D (fmtSuffix .D tm10000) = false ∧
    fmtSuffix .D tm10000 = "10000-01-01".data := by
  refine ⟨by decide, by decide, by decide, by decide⟩

/-- C9 (amended): for every rollover unit, every suffix formatted from
a valid broken-down time with a four-digit year is accepted by the
unit's matcher, and strings differing in a field width or separator
are rejected (samples per unit shown); suffixes of producible
timestamps with five-digit years are rejected, so acceptance is exact
only on the four-digit-year range. -/
theorem c9_roundtrip (tm : Tm) (hv : TmValid tm)
    (hy : 1000 ≤ tm.year ∧ tm.year ≤ 9999) :
    (∀ u : WhenU, extMatchFor u (fmtSuffix u tm) = true) ∧
    matchYmd "2024-3-10".data = false ∧
    matchYmd "24-03-10".data = false ∧
    matchYmd "2024_03_10".data = false ∧
    matchYmdH "2024-03-10_7".data = false ∧
    matchYmdHM "2024-03-10_07:30".data = false ∧
    matchYmdHMS "2024-03-10_07-30-5".data = false := by
  refine ⟨fun u => ?_, by decide, by decide, by decide, by decide, by decide, by decide⟩
  cases u with
  | S => exact fmtS_accepted tm hv hy
  | M => exact fmtM_accepted tm hv hy
  | H => exact fmtH_accepted tm hv hy
  | D => exact fmtD_accepted tm hv hy
  | MIDNIGHT => exact fmtD_accepted tm hv hy
  | W d => exact fmtD_accepted tm hv hy

/-- Witness for C9 (amended) at the broken-down time of
2024-01-04 07:30:05. -/
theorem c9_witness :
    TmValid ⟨2024, 1, 4, 7, 30, 5, 3, false⟩ ∧
    extMatchFor .S (fmtSuffix .S ⟨2024, 1, 4, 7, 30, 5, 3, false⟩) = true ∧
    extMatchFor .MIDNIGHT (fmtSuffix .MIDNIGHT ⟨2024, 1, 4, 7, 30, 5, 3, false⟩) = true := by
  have h := c9_roundtrip ⟨2024, 1, 4, 7, 30, 5, 3, false⟩ (by decide) (by decide)
  exact ⟨by decide, h.1 .S, h.1 .MIDNIGHT⟩
